import Mathlib

/-!
Verification development for the `mvv` file-moving tool (src/main.rs).

We shallowly embed the program's core pieces:
* the resume-offset detection loop of `move_file` (lines 42–110), as a
  fuel-indexed loop over byte streams (`detectLoop`); running out of fuel
  (`none`) models nontermination of the Rust `while` loop;
* the copy phase (lines 112–136), as an overwrite-at-offset on the
  destination byte list (`copyPhase`);
* the whole `move_file` control flow (lines 11–143), with an error-injection
  environment standing for the fallible filesystem calls;
* `main`'s outcome aggregation and final cleanup (lines 206–228), and its
  enumeration of directory entries (lines 172–204);
* `main`'s argument handling (lines 147–159).

Bytes are modelled as `Nat`; file contents as `List Nat`.
-/

namespace Mvv

/-- A readable file stream: its full contents and the current cursor. -/
structure FileStream where
  content : List Nat
  pos : Nat
  deriving Repr, DecidableEq

/-- `read n` mirrors `File::read` on a regular file: it yields
`min n (bytes remaining)` bytes and advances the cursor by that amount. -/
def FileStream.read (s : FileStream) (n : Nat) : List Nat × FileStream :=
  let bytes := (s.content.drop s.pos).take n
  (bytes, { s with pos := s.pos + bytes.length })

/-- `readExact n` mirrors `AsyncReadExt::read_exact`: it yields exactly `n`
bytes, or `none` (the `UnexpectedEof` error) when fewer than `n` remain. -/
def FileStream.readExact (s : FileStream) (n : Nat) : Option (List Nat × FileStream) :=
  if n ≤ s.content.length - s.pos then
    some ((s.content.drop s.pos).take n, { s with pos := s.pos + n })
  else
    none

/-- Embedding of the inner byte-comparison `for` loop (main.rs lines 93–101):
count equal leading pairs; the first differing pair stops the count (`break`). -/
def countMatch : List Nat → List Nat → Nat
  | x :: xs, y :: ys => if x = y then countMatch xs ys + 1 else 0
  | _, _ => 0

/-- The spec-side notion: length of the longest common byte-prefix of two
files (used to judge the detector's result against the spec's words). -/
def lcpLen : List Nat → List Nat → Nat
  | x :: xs, y :: ys => if x = y then lcpLen xs ys + 1 else 0
  | _, _ => 0

/-- Result of one iteration of the detection `while` loop. -/
inductive StepRes where
  | cont (src dest : FileStream) (read : Nat)
  | brk (read : Nat)
  deriving Repr, DecidableEq

/-- Embedding of main.rs lines 69–103: after the two chunk reads returned
`sBytes` and `dBytes`, align the shorter side by a forced `read_exact`
(an `UnexpectedEof` there breaks out of the `while` loop with the
accumulated `read`), then run the byte-comparison loop and continue. -/
def alignCompare (sBytes dBytes : List Nat) (src dest : FileStream) (read : Nat) : StepRes :=
  if sBytes.length < dBytes.length then
    match src.readExact (dBytes.length - sBytes.length) with
    | none => .brk read
    | some (extra, src2) => .cont src2 dest (read + countMatch (sBytes ++ extra) dBytes)
  else if dBytes.length < sBytes.length then
    match dest.readExact (sBytes.length - dBytes.length) with
    | none => .brk read
    | some (extra, dest2) => .cont src dest2 (read + countMatch sBytes (dBytes ++ extra))
  else
    .cont src dest (read + countMatch sBytes dBytes)

/-- One iteration of the detection `while` loop body (main.rs lines 63–104):
read up to `min chunk (minSize - read)` bytes from each stream, then align
and compare. -/
def detectStep (chunk minSize : Nat) (src dest : FileStream) (read : Nat) : StepRes :=
  let readMax := min chunk (minSize - read)
  let (sBytes, src1) := src.read readMax
  let (dBytes, dest1) := dest.read readMax
  alignCompare sBytes dBytes src1 dest1 read

/-- The detection `while read < min_size` loop (main.rs lines 63–104),
indexed by fuel: `none` means the loop has not terminated within `fuel`
iterations (for every fuel — nontermination). -/
def detectLoop (chunk minSize : Nat) : Nat → FileStream → FileStream → Nat → Option Nat
  | 0, _, _, _ => none
  | fuel + 1, src, dest, read =>
    if read < minSize then
      match detectStep chunk minSize src dest read with
      | .brk r => some r
      | .cont src' dest' r => detectLoop chunk minSize fuel src' dest' r
    else some read

/-- Embedding of the `init_offset` computation (main.rs lines 42–110):
when the destination pre-exists, run the detection loop with chunk size
`bufSize / 2` over `min` of the two sizes; otherwise the offset is 0. -/
def initOffset (bufSize : Nat) (srcC destC : List Nat) (destExists : Bool) (fuel : Nat) :
    Option Nat :=
  if destExists then
    let chunk := bufSize / 2
    let minSize := min srcC.length destC.length
    if minSize ≠ 0 then detectLoop chunk minSize fuel ⟨srcC, 0⟩ ⟨destC, 0⟩ 0
    else some 0
  else some 0

/-- Overwrite `data` into `dest` starting at byte offset `off`, without
truncating: bytes of `dest` before `off` and beyond `off + data.length`
are kept (positions between an old EOF and `off` read as zero). This is
what seeking to `off` in a write-without-truncate file and writing `data`
does to the destination's contents. -/
def writeAt (dest : List Nat) (off : Nat) (data : List Nat) : List Nat :=
  dest.take off ++ List.replicate (off - dest.length) 0 ++ data ++ dest.drop (off + data.length)

/-- The copy phase (main.rs lines 112–136): both cursors are positioned at
`off` and all remaining source bytes `srcC.drop off` are streamed into the
destination, which was opened with `create(true).write(true)` and no
truncation. -/
def copyPhase (destC srcC : List Nat) (off : Nat) : List Nat :=
  writeAt destC off (srcC.drop off)

/-- The filesystem state a single `move_file` task sees: the contents of
its source and destination paths (`none` = the path does not exist). -/
structure FS where
  src : Option (List Nat)
  dest : Option (List Nat)
  deriving Repr, DecidableEq

/-- Error-injection environment for `move_file`: each flag tells whether the
corresponding fallible filesystem call succeeds; `copyPartial` is how many
bytes the copy writes before failing when `copyOk = false`. -/
structure Env where
  existsOk : Bool
  createDirOk : Bool
  detectOk : Bool
  openSrcOk : Bool
  seekSrcOk : Bool
  openDestOk : Bool
  seekDestOk : Bool
  copyOk : Bool
  copyPartial : Nat
  removeOk : Bool
  deriving Repr, DecidableEq

/-- Embedding of `move_file` (main.rs lines 11–143): the sequence of
fallible steps, threading the filesystem state. Result `none` models
nontermination (the detection loop not finishing within `fuel`);
`some (res, fs')` gives the task's outcome and the filesystem afterwards.
Source-existence check, parent-dir creation, `init_offset`, the two opens
and seeks, the copy, and the final `remove_file(src)` occur in program
order; every error returns early with the state reached so far. -/
def moveFile (e : Env) (bufSize : Nat) (fuel : Nat) (fs : FS) :
    Option (Except String Unit × FS) :=
  if !e.existsOk then some (.error "io error", fs)
  else
    match fs.src with
    | none => some (.error "source file does not exist", fs)
    | some srcC =>
      if !e.createDirOk then some (.error "io error", fs)
      else
        let offRes : Option (Except String Nat) :=
          match fs.dest with
          | some destC =>
            if !e.detectOk then some (.error "io error")
            else
              match initOffset bufSize srcC destC true fuel with
              | none => none
              | some r => some (.ok r)
          | none => some (.ok 0)
        match offRes with
        | none => none
        | some (.error m) => some (.error m, fs)
        | some (.ok off) =>
          if !e.openSrcOk then some (.error "io error", fs)
          else if !e.seekSrcOk then some (.error "io error", fs)
          else if !e.openDestOk then some (.error "io error", fs)
          else
            let base := fs.dest.getD []
            let fsOpened : FS := { fs with dest := some base }
            if !e.seekDestOk then some (.error "io error", fsOpened)
            else if !e.copyOk then
              let written := min e.copyPartial (srcC.length - off)
              some (.error "io error",
                { fsOpened with dest := some (writeAt base off ((srcC.drop off).take written)) })
            else
              let fsCopied : FS := { fsOpened with dest := some (copyPhase base srcC off) }
              if !e.removeOk then some (.error "io error", fsCopied)
              else some (.ok (), { fsCopied with src := none })

/-- The failures `main` reports (main.rs lines 208–213): each task whose
result is an error, paired with its path, in order. -/
def collectFailures (outcomes : List (String × Except String Unit)) : List (String × String) :=
  outcomes.filterMap fun pr =>
    match pr.2 with
    | .error e => some (pr.1, e)
    | .ok _ => none

/-- The end state of a run. -/
structure RunEnd where
  failures : List (String × String)
  srcDeleted : Bool
  exitOk : Bool
  deriving Repr, DecidableEq

/-- Embedding of `main`'s tail (main.rs lines 206–228): await all tasks,
print every failing path with its error and set `incomplete`; if any task
failed return an error (non-zero exit, no top-level deletion); otherwise
delete the top-level source and exit zero. -/
def finishRun (outcomes : List (String × Except String Unit)) : RunEnd :=
  let fails := collectFailures outcomes
  if fails.isEmpty then ⟨fails, true, true⟩ else ⟨fails, false, false⟩

/-- A directory entry as yielded by the walk (main.rs lines 172–204):
`WalkDir` does not follow links, so a symlink entry's file type is the
symlink type and `is_file()` is false for it. -/
structure Entry where
  path : String
  isFile : Bool
  isSymlink : Bool
  deriving Repr, DecidableEq

/-- The symlink warnings `main` emits (main.rs lines 174–179): one per
symlink entry. -/
def warnings (es : List Entry) : List String :=
  (es.filter fun e => e.isSymlink).map fun e => e.path

/-- The move jobs `main` spawns (main.rs lines 180–203): one per entry whose
file type is a regular file; every other entry is skipped by `continue`. -/
def jobs (es : List Entry) : List String :=
  (es.filter fun e => e.isFile).map fun e => e.path

/-- The paths removed by the final cleanup (main.rs lines 215–225): when no
task failed, `remove_dir_all` (or `remove_file`) deletes everything that was
enumerated under the source; when some task failed, `main` returns early and
deletes nothing at the top level. -/
def deletedPaths (es : List Entry) (outcomes : List (String × Except String Unit)) :
    List String :=
  if (collectFailures outcomes).isEmpty then es.map fun e => e.path else []

/-- Embedding of Rust's `str::parse::<usize>`: an optional leading sign
followed by at least one ASCII digit parses to the number; anything else is
an error (`none`). -/
def parseUsize (s : String) : Option Nat :=
  let cs := if s.toList.head? = some '+' then s.toList.tail else s.toList
  if cs.length ≠ 0 ∧ cs.all Char.isDigit then
    some (cs.foldl (fun a c => a * 10 + (c.toNat - 48)) 0)
  else none

/-- What `main`'s argument handling does (main.rs lines 147–159). -/
inductive ArgOutcome where
  | panic
  | err
  | proceed (permits : Nat)
  deriving Repr, DecidableEq

/-- Embedding of main.rs lines 147–159: with neither 3 nor 4 arguments a
syntax error is returned; with 4 arguments the fourth is parsed with
`.unwrap()`, so a parse failure is a panic; with 3 arguments the permit
count is 4. -/
def parseArgs (argv : List String) : ArgOutcome :=
  if argv.length ≠ 3 ∧ argv.length ≠ 4 then .err
  else if h : argv.length = 4 then
    match parseUsize (argv.get ⟨3, by omega⟩) with
    | none => .panic
    | some n => .proceed n
  else .proceed 4

end Mvv

namespace Mvv

/-! ## Theorems -/

/-- Helper: the detection step at the post-mismatch EOF fixpoint (both
streams exhausted, `read` short of `minSize`) returns to the same state. -/
theorem detectStep_stuck :
    detectStep 5000000 1 ⟨[0], 1⟩ ⟨[1], 1⟩ 0 = .cont ⟨[0], 1⟩ ⟨[1], 1⟩ 0 := by
  decide

/-- Helper: the first detection step on two differing one-byte files reads
both bytes, finds the mismatch, and continues with `read = 0`. -/
theorem detectStep_first :
    detectStep 5000000 1 ⟨[0], 0⟩ ⟨[1], 0⟩ 0 = .cont ⟨[0], 1⟩ ⟨[1], 1⟩ 0 := by
  decide

/-- Helper: from the EOF fixpoint the detection loop never returns,
whatever the fuel. -/
theorem detectLoop_stuck (fuel : Nat) :
    detectLoop 5000000 1 fuel ⟨[0], 1⟩ ⟨[1], 1⟩ 0 = none := by
  induction fuel with
  | zero => rfl
  | succ n ih =>
    rw [detectLoop, if_pos (by decide), detectStep_stuck]
    exact ih

/-- C3: the claim that detection terminates for every pair of finite files
fails on the code: on source `[0]` and destination `[1]` (two existing
one-byte files with different contents, the default 10,000,000-byte buffer),
the `while read < min_size` loop never exits — after the mismatch both
streams sit at EOF, every further read returns 0 bytes, and `read` stays 0
forever. The fuel-indexed embedding returns `none` for every fuel. -/
theorem detect_nonterminating_C3 (fuel : Nat) :
    initOffset 10000000 [0] [1] true fuel = none := by
  have h : initOffset 10000000 [0] [1] true fuel
      = detectLoop 5000000 1 fuel ⟨[0], 0⟩ ⟨[1], 0⟩ 0 := by
    simp [initOffset]
  rw [h]
  cases fuel with
  | zero => rfl
  | succ n =>
    rw [detectLoop, if_pos (by decide), detectStep_first]
    exact detectLoop_stuck n

end Mvv

namespace Mvv

/-- C1: the claim that `init_offset` equals the longest common byte-prefix
length fails on the code. With `buf_size = 4` (chunk size 2), source
`[1,2,3,4]` and pre-existing destination `[1,9,3,4,5]`, the files diverge at
index 1, so the longest common byte-prefix has length 1; but the detector
keeps scanning after the divergence, counts the coincidental matches `3, 4`
at indices 2 and 3 of the second chunk, and returns `init_offset = 3`.
(The other half of the claim, `init_offset ≤ min` of the sizes, does hold:
here 3 ≤ 4.) -/
theorem initOffset_ne_lcp_C1 :
    initOffset 4 [1, 2, 3, 4] [1, 9, 3, 4, 5] true 10 = some 3 ∧
    lcpLen [1, 2, 3, 4] [1, 9, 3, 4, 5] = 1 ∧
    (3 : Nat) ≠ 1 := by
  decide

/-- C2: the claim that detection stops entirely at the first divergence
fails on the code: the `break` on a mismatched byte only exits the inner
`for` comparison loop, not the outer `while` loop. With chunk size 2 on
source `[1,2,3,4]` and destination `[1,9,3,4,5]`: the first chunk pair
`[1,2]` / `[1,9]` diverges at index 1 (only 1 of its 2 byte pairs match),
yet the step result is `cont` — both cursors advanced to 2 and the loop set
to continue — and the full run goes on to read and compare the later chunks,
growing `read` from 1 to 3 past the divergence. -/
theorem detect_scans_after_divergence_C2 :
    (countMatch [1, 2] [1, 9] = 1 ∧ ([1, 2] : List Nat).length = 2) ∧
    detectStep 2 4 ⟨[1, 2, 3, 4], 0⟩ ⟨[1, 9, 3, 4, 5], 0⟩ 0
      = .cont ⟨[1, 2, 3, 4], 2⟩ ⟨[1, 9, 3, 4, 5], 2⟩ 1 ∧
    detectLoop 2 4 10 ⟨[1, 2, 3, 4], 0⟩ ⟨[1, 9, 3, 4, 5], 0⟩ 0 = some 3 := by
  decide

/-- C8: when the destination does not pre-exist the offset used is 0, and
when `min` of the two sizes is 0 the detector returns 0 (the `while` loop is
guarded by `min_size != 0` and `read` starts at 0). -/
theorem initOffset_zero_C8 (bufSize fuel : Nat) (srcC destC : List Nat) :
    initOffset bufSize srcC destC false fuel = some 0 ∧
    (min srcC.length destC.length = 0 → initOffset bufSize srcC destC true fuel = some 0) := by
  constructor
  · simp [initOffset]
  · intro h
    simp [initOffset, h]

/-- Witness for C8 at concrete inputs: source `[1,2]`, empty destination. -/
theorem initOffset_zero_C8_witness :
    initOffset 10000000 [1, 2] [] true 0 = some 0 :=
  (initOffset_zero_C8 10000000 0 [1, 2] []).2 (by decide)

/-- Helper: a successful `readExact n` returns exactly `n` bytes. -/
theorem readExact_length {s s2 : FileStream} {n : Nat} {ex : List Nat}
    (h : s.readExact n = some (ex, s2)) : ex.length = n := by
  unfold FileStream.readExact at h
  by_cases hle : n ≤ s.content.length - s.pos
  · rw [if_pos hle] at h
    cases h
    simp [List.length_take, List.length_drop]
    omega
  · rw [if_neg hle] at h
    cases h

/-- C9: within a detection step, if the two chunk reads returned different
byte counts, the shorter side is aligned by a forced `read_exact` before any
comparison: if that read hits end of stream (`none`), the step breaks out of
the loop reporting the `read` accumulated so far; if it succeeds, the step
compares buffers of equal length and continues. Equal-length reads are
compared directly. -/
theorem alignCompare_C9 (sB dB : List Nat) (s d : FileStream) (r : Nat) :
    (sB.length < dB.length →
      (s.readExact (dB.length - sB.length) = none → alignCompare sB dB s d r = .brk r) ∧
      (∀ ex s2, s.readExact (dB.length - sB.length) = some (ex, s2) →
        alignCompare sB dB s d r = .cont s2 d (r + countMatch (sB ++ ex) dB) ∧
        (sB ++ ex).length = dB.length)) ∧
    (dB.length < sB.length →
      (d.readExact (sB.length - dB.length) = none → alignCompare sB dB s d r = .brk r) ∧
      (∀ ex d2, d.readExact (sB.length - dB.length) = some (ex, d2) →
        alignCompare sB dB s d r = .cont s d2 (r + countMatch sB (dB ++ ex)) ∧
        (dB ++ ex).length = sB.length)) ∧
    (sB.length = dB.length → alignCompare sB dB s d r = .cont s d (r + countMatch sB dB)) := by
  refine ⟨fun hlt => ⟨fun hnone => ?_, fun ex s2 hsome => ⟨?_, ?_⟩⟩,
    fun hgt => ⟨fun hnone => ?_, fun ex d2 hsome => ⟨?_, ?_⟩⟩, fun heq => ?_⟩
  · rw [alignCompare, if_pos hlt, hnone]
  · rw [alignCompare, if_pos hlt, hsome]
  · have := readExact_length hsome
    simp [List.length_append, this]
    omega
  · rw [alignCompare, if_neg (Nat.lt_asymm hgt), if_pos hgt, hnone]
  · rw [alignCompare, if_neg (Nat.lt_asymm hgt), if_pos hgt, hsome]
  · have := readExact_length hsome
    simp [List.length_append, this]
    omega
  · rw [alignCompare, if_neg (by omega), if_neg (by omega)]

/-- Witness for C9 at concrete inputs: the source chunk is one byte short of
the destination chunk and the source stream is at EOF, so detection breaks
with the accumulated count. -/
theorem alignCompare_C9_witness :
    alignCompare [1] [1, 2] ⟨[1], 1⟩ ⟨[], 0⟩ 0 = .brk 0 :=
  ((alignCompare_C9 [1] [1, 2] ⟨[1], 1⟩ ⟨[], 0⟩ 0).1 (by decide)).1 (by decide)

end Mvv

namespace Mvv

/-- C6: the copy phase never truncates the destination. With the cursors at
offset `off` (which detection guarantees is at most both lengths): bytes
before `off` are untouched, bytes at positions at or beyond the source
length — in particular the stale tail of a longer pre-existing destination —
are untouched, and the destination never shrinks. -/
theorem copyPhase_no_truncate_C6 (destC srcC : List Nat) (off : Nat)
    (h1 : off ≤ destC.length) (h2 : off ≤ srcC.length) :
    (copyPhase destC srcC off).take off = destC.take off ∧
    (copyPhase destC srcC off).drop srcC.length = destC.drop srcC.length ∧
    destC.length ≤ (copyPhase destC srcC off).length := by
  have hrep : List.replicate (off - destC.length) (0 : Nat) = [] := by
    rw [Nat.sub_eq_zero_of_le h1]
    rfl
  have hlen1 : (destC.take off).length = off := by
    simp [List.length_take]
    omega
  have hoff : off + (srcC.drop off).length = srcC.length := by
    simp [List.length_drop]
    omega
  refine ⟨?_, ?_, ?_⟩
  · rw [copyPhase, writeAt, hrep, List.append_nil, List.append_assoc,
      List.take_left' hlen1]
  · rw [copyPhase, writeAt, hrep, List.append_nil, List.append_assoc,
      ← List.append_assoc, hoff]
    exact List.drop_left' (by simp [List.length_append, hlen1, List.length_drop]; omega)
  · rw [copyPhase, writeAt, hrep]
    simp [List.length_append, hlen1, List.length_drop, List.length_take]
    omega

/-- Witness for C6 at concrete inputs: destination `[7,8,9]`, source `[7,5]`,
resume offset 1 — the stale third byte `9` survives. -/
theorem copyPhase_no_truncate_C6_witness :
    (copyPhase [7, 8, 9] [7, 5] 1).take 1 = ([7, 8, 9] : List Nat).take 1 ∧
    (copyPhase [7, 8, 9] [7, 5] 1).drop 2 = ([7, 8, 9] : List Nat).drop 2 ∧
    ([7, 8, 9] : List Nat).length ≤ (copyPhase [7, 8, 9] [7, 5] 1).length :=
  copyPhase_no_truncate_C6 [7, 8, 9] [7, 5] 1 (by decide) (by decide)

/-- C10: a fourth command-line argument that is not a valid integer makes
`main` panic (the `.unwrap()` on the parse result) rather than return an
error value; with only three arguments the limiter capacity is 4. -/
theorem parseArgs_panic_C10 :
    parseArgs ["mvv", "a", "b", "x2"] = .panic ∧
    parseArgs ["mvv", "a", "b"] = .proceed 4 := by
  decide

end Mvv

namespace Mvv

/-- C4: a move job's source file is deleted if and only if the job ends in
success; every error path returns early, before the final
`remove_file(src)`, leaving the source exactly as it was. -/
theorem moveFile_src_deleted_iff_ok_C4 (e : Env) (bufSize fuel : Nat) (fs : FS)
    (c : List Nat) (hsrc : fs.src = some c)
    (res : Except String Unit) (fs' : FS)
    (h : moveFile e bufSize fuel fs = some (res, fs')) :
    (res = .ok () ↔ fs'.src = none) ∧ (∀ m, res = .error m → fs'.src = fs.src) := by
  obtain ⟨osrc, odest⟩ := fs
  simp only [FS.src] at hsrc
  subst hsrc
  simp only [moveFile] at h
  repeat' split at h
  all_goals first
    | (cases h; simp_all)
    | simp_all

/-- Witness for C4 at concrete inputs: an all-succeeding environment moving
a one-byte source onto a missing destination deletes the source. -/
theorem moveFile_src_deleted_iff_ok_C4_witness :
    ((Except.ok () : Except String Unit) = .ok () ↔ (⟨none, some [1]⟩ : FS).src = none) ∧
    (∀ m, (Except.ok () : Except String Unit) = .error m →
      (⟨none, some [1]⟩ : FS).src = (⟨some [1], none⟩ : FS).src) :=
  moveFile_src_deleted_iff_ok_C4 ⟨true, true, true, true, true, true, true, true, 0, true⟩
    4 1 ⟨some [1], none⟩ [1] rfl (.ok ()) ⟨none, some [1]⟩ rfl

/-- Helper: the failure list is empty exactly when every outcome is ok. -/
theorem collectFailures_eq_nil_iff (os : List (String × Except String Unit)) :
    collectFailures os = [] ↔ ∀ pr ∈ os, pr.2 = .ok () := by
  induction os with
  | nil => simp [collectFailures]
  | cons hd tl ih =>
    obtain ⟨p, r⟩ := hd
    cases r with
    | error m =>
      simp only [collectFailures, List.filterMap_cons] at *
      simp_all
    | ok u =>
      cases u
      simp only [collectFailures, List.filterMap_cons] at *
      simp_all

/-- C5: the top-level source is deleted at the end of a run if and only if
every per-file outcome is a success; when one or more tasks failed, the run
exits non-zero, the source stays, and every failing path is reported with
its error. -/
theorem finishRun_C5 (os : List (String × Except String Unit)) :
    ((finishRun os).srcDeleted = true ↔ ∀ pr ∈ os, pr.2 = .ok ()) ∧
    ((∃ pr ∈ os, pr.2 ≠ .ok ()) →
      (finishRun os).exitOk = false ∧ (finishRun os).srcDeleted = false) ∧
    (∀ p m, (p, Except.error m) ∈ os → (p, m) ∈ (finishRun os).failures) := by
  have hfail : (finishRun os).failures = collectFailures os := by
    simp only [finishRun]
    split <;> rfl
  have hsd : (finishRun os).srcDeleted = (collectFailures os).isEmpty := by
    simp only [finishRun]
    split <;> simp_all
  have hex : (finishRun os).exitOk = (collectFailures os).isEmpty := by
    simp only [finishRun]
    split <;> simp_all
  refine ⟨?_, ?_, ?_⟩
  · rw [hsd, List.isEmpty_iff]
    exact collectFailures_eq_nil_iff os
  · rintro ⟨pr, hpr, hne⟩
    have hnil : collectFailures os ≠ [] := fun hc =>
      hne (((collectFailures_eq_nil_iff os).mp hc) pr hpr)
    rw [hex, hsd]
    simp [List.isEmpty_iff, hnil]
  · intro p m hmem
    rw [hfail]
    exact List.mem_filterMap.mpr ⟨(p, .error m), hmem, rfl⟩

/-- Witness for C5 at a concrete input: a run with one failing job exits
non-zero and keeps the source. -/
theorem finishRun_C5_witness :
    (finishRun [("a", Except.error "boom")]).exitOk = false ∧
    (finishRun [("a", Except.error "boom")]).srcDeleted = false :=
  (finishRun_C5 [("a", .error "boom")]).2.1
    ⟨("a", .error "boom"), by simp, by simp⟩

/-- C7 counterexample: the claim that symlinks under the source are never
deleted is false. A source directory containing just a symlink yields no
move jobs, so no task fails, and the final `remove_dir_all` deletes the
whole tree — symlink included. -/
theorem symlink_deleted_C7_counterexample :
    (Entry.mk "link" false true).isSymlink = true ∧
    "link" ∈ deletedPaths [Entry.mk "link" false true] [] := by
  constructor
  · rfl
  · simp [deletedPaths, collectFailures]

/-- C7 amended: every symlink entry produces a warning and is never given a
move job (never copied); entries are deleted at the end only when every
task succeeded, i.e. only as part of the final whole-tree removal of a fully
successful run — in which case symlinks are removed along with the tree. -/
theorem symlink_C7_amended (es : List Entry) (outcomes : List (String × Except String Unit))
    (wf : ∀ e ∈ es, e.isSymlink = true → e.isFile = false) :
    (∀ e ∈ es, e.isSymlink = true → e.path ∈ warnings es) ∧
    (∀ p ∈ jobs es, ∃ e ∈ es, e.isFile = true ∧ e.isSymlink = false ∧ e.path = p) ∧
    (collectFailures outcomes ≠ [] → deletedPaths es outcomes = []) := by
  refine ⟨?_, ?_, ?_⟩
  · intro e he hsym
    unfold warnings
    exact List.mem_map.mpr ⟨e, List.mem_filter.mpr ⟨he, by simp [hsym]⟩, rfl⟩
  · intro p hp
    unfold jobs at hp
    obtain ⟨e, hmem, hpath⟩ := List.mem_map.mp hp
    obtain ⟨hin, hfile⟩ := List.mem_filter.mp hmem
    refine ⟨e, hin, by simpa using hfile, ?_, hpath⟩
    cases hsy : e.isSymlink
    · rfl
    · have hff := wf e hin hsy
      simp [hff] at hfile
  · intro hne
    unfold deletedPaths
    rw [if_neg (by simp [List.isEmpty_iff, hne])]

/-- Witness for the amended C7 at concrete inputs: a tree with one file and
one symlink where the file's move fails — the symlink is warned about,
spawns no job, and nothing is deleted at the end. -/
theorem symlink_C7_amended_witness :
    "link" ∈ warnings [Entry.mk "f" true false, Entry.mk "link" false true] ∧
    deletedPaths [Entry.mk "f" true false, Entry.mk "link" false true]
      [("f", Except.error "x")] = [] := by
  have h := symlink_C7_amended [Entry.mk "f" true false, Entry.mk "link" false true]
    [("f", Except.error "x")] (by decide)
  exact ⟨h.1 (Entry.mk "link" false true) (by simp) rfl,
    h.2.2 (by simp [collectFailures])⟩

end Mvv
